import Mathlib

/-!
Verification of the process-tracker repository (Rust) against its
natural-language specification.

The Rust sources are shallowly embedded below:
  * src/db.rs        : timestamp handling, `get_new_running_time`,
                       `update_processes`, `setup_database`
  * src/processes.rs : `QUERY_INTERVAL`, `pretty_process_name`
  * src/main.rs      : `is_relevant_process`, `process_process_list`

Machine integers (u64/i64) are modelled as Nat/Int; the one place where
overflow semantics matter (the u64 subtraction and the `as u64` cast in
`get_new_running_time`) is modelled explicitly.  Rust panics and the
unwrap of fallible library calls are modelled as `Except.error` values.
-/

namespace ProcessTracker

/-- Decidable equality for `Except`, used to evaluate the embedded
fallible operations on concrete inputs. -/
instance {ε α : Type} [DecidableEq ε] [DecidableEq α] :
    DecidableEq (Except ε α) := fun a b =>
  match a, b with
  | .error e, .error f =>
    if h : e = f then .isTrue (congrArg Except.error h)
    else .isFalse (fun c => h (by injection c))
  | .error _, .ok _ => .isFalse (fun c => by injection c)
  | .ok _, .error _ => .isFalse (fun c => by injection c)
  | .ok x, .ok y =>
    if h : x = y then .isTrue (congrArg Except.ok h)
    else .isFalse (fun c => h (by injection c))

/-! ### Calendar arithmetic (model of chrono NaiveDateTime and SQLite datetime)

The persisted `created_at` column holds strings in the SQLite
CURRENT_TIMESTAMP format, which coincides with the chrono format string
used by db.rs: "%Y-%m-%d %H:%M:%S" (UTC, 4-digit year, zero-padded
fields).  We model parsing of exactly that shape: a 4-digit year, as the
storage layer produces.  Leap seconds: chrono accepts second 60 and its
`timestamp()` counts it like second 59; we do the same. -/

/-- Proleptic Gregorian leap-year test (year 0 is a leap year). -/
def isLeapYear (y : Nat) : Bool :=
  (y % 4 == 0 && y % 100 != 0) || y % 400 == 0

/-- Days in the given month of the given year (m is 1-12). -/
def daysInMonth (y m : Nat) : Nat :=
  if m == 2 then (if isLeapYear y then 29 else 28)
  else if m == 4 || m == 6 || m == 9 || m == 11 then 30
  else 31

/-- Days from 0000-01-01 to the start of year `y` (proleptic Gregorian). -/
def daysBeforeYear (y : Nat) : Nat :=
  365 * y + (if y = 0 then 0 else (y - 1) / 4 - (y - 1) / 100 + (y - 1) / 400 + 1)

/-- Days from the start of the year to the start of month `m` (1-12). -/
def daysBeforeMonth (leap : Bool) (m : Nat) : Nat :=
  let l := if leap then 1 else 0
  match m with
  | 1 => 0 | 2 => 31 | 3 => 59 + l | 4 => 90 + l | 5 => 120 + l | 6 => 151 + l
  | 7 => 181 + l | 8 => 212 + l | 9 => 243 + l | 10 => 273 + l | 11 => 304 + l
  | _ => 334 + l

/-- Days from 0000-01-01 to y-m-d (proleptic Gregorian). -/
def daysFromCivil (y m d : Nat) : Nat :=
  daysBeforeYear y + daysBeforeMonth (isLeapYear y) m + (d - 1)

/-- Days from 0000-01-01 to 1970-01-01. -/
def epochDays : Nat := 719528

/-- Unix timestamp (seconds, may be negative before 1970) of a civil datetime. -/
def civilTimestamp (y m d h mi se : Nat) : Int :=
  ((daysFromCivil y m d : Int) - (epochDays : Int)) * 86400
    + ((h * 3600 + mi * 60 + se : Nat) : Int)

/-- Decimal value of an ASCII digit character, if it is one. -/
def digitVal (c : Char) : Option Nat :=
  if c.isDigit then some (c.toNat - 48) else none

/-- Model of `NaiveDateTime::parse_from_str(s, "%Y-%m-%d %H:%M:%S")` followed
by `.timestamp()`: parses exactly `YYYY-MM-DD HH:MM:SS` (4-digit year, the
shape the storage layer writes), validates the calendar date and the time
fields (second 60 is accepted as a leap second and counted like 59), and
returns the Unix timestamp in seconds, which is negative for pre-1970
datetimes.  Any other string is rejected, as chrono rejects it. -/
def parseTimestamp (s : String) : Option Int :=
  match s.toList with
  | [y1, y2, y3, y4, '-', m1, m2, '-', d1, d2, ' ',
     h1, h2, ':', n1, n2, ':', s1, s2] => do
    let y := 1000 * (← digitVal y1) + 100 * (← digitVal y2)
              + 10 * (← digitVal y3) + (← digitVal y4)
    let mo := 10 * (← digitVal m1) + (← digitVal m2)
    let d := 10 * (← digitVal d1) + (← digitVal d2)
    let h := 10 * (← digitVal h1) + (← digitVal h2)
    let mi := 10 * (← digitVal n1) + (← digitVal n2)
    let se := 10 * (← digitVal s1) + (← digitVal s2)
    if 1 ≤ mo ∧ mo ≤ 12 ∧ 1 ≤ d ∧ d ≤ daysInMonth y mo
        ∧ h ≤ 23 ∧ mi ≤ 59 ∧ se ≤ 60 then
      some (civilTimestamp y mo d h mi (min se 59))
    else
      none
  | _ => none

/-- Civil date (year, month, day) of a day count since 1970-01-01
(non-negative).  Standard era-based conversion. -/
def civilFromDays (z0 : Nat) : Nat × Nat × Nat :=
  let z := z0 + 719468
  let era := z / 146097
  let doe := z % 146097
  let yoe := (doe - doe / 1460 + doe / 36524 - doe / 146096) / 365
  let y := yoe + era * 400
  let doy := doe - (365 * yoe + yoe / 4 - yoe / 100)
  let mp := (5 * doy + 2) / 153
  let d := doy - (153 * mp + 2) / 5 + 1
  let m := if mp < 10 then mp + 3 else mp - 9
  (if m ≤ 2 then y + 1 else y, m, d)

/-- Zero-pad a numeral to two digits. -/
def pad2 (n : Nat) : String :=
  if n < 10 then "0" ++ toString n else toString n

/-- Zero-pad a numeral to four digits. -/
def pad4 (n : Nat) : String :=
  if n < 10 then "000" ++ toString n
  else if n < 100 then "00" ++ toString n
  else if n < 1000 then "0" ++ toString n
  else toString n

/-- Model of the SQLite CURRENT_TIMESTAMP / datetime() text for a
non-negative Unix timestamp: `YYYY-MM-DD HH:MM:SS` in UTC. -/
def formatTimestamp (t : Nat) : String :=
  let (y, m, d) := civilFromDays (t / 86400)
  let secs := t % 86400
  pad4 y ++ "-" ++ pad2 m ++ "-" ++ pad2 d ++ " "
    ++ pad2 (secs / 3600) ++ ":" ++ pad2 (secs % 3600 / 60) ++ ":" ++ pad2 (secs % 60)

/-! ### String primitives

Executable versions of the string operations the sources use
(`starts_with`, `ends_with`, `split`, byte-wise comparison), defined by
structural recursion on character lists.  For the ASCII data handled
here, comparing UTF-32 code points agrees with the UTF-8 byte
comparison Rust and SQLite perform. -/

/-- Lexicographic strict comparison of character lists by code point. -/
def charsLt : List Char → List Char → Bool
  | [], [] => false
  | [], _ :: _ => true
  | _ :: _, [] => false
  | a :: as, b :: bs =>
    if a.toNat < b.toNat then true
    else if b.toNat < a.toNat then false
    else charsLt as bs

/-- Lexicographic strict comparison of strings (SQLite TEXT comparison,
Rust str ordering; they agree on ASCII). -/
def strLt (a b : String) : Bool := charsLt a.toList b.toList

/-- Rust `str::starts_with`. -/
def strStartsWith (s pat : String) : Bool :=
  pat.toList.isPrefixOf s.toList

/-- Rust `str::ends_with`. -/
def strEndsWith (s pat : String) : Bool :=
  pat.toList.reverse.isPrefixOf s.toList.reverse

/-- Splitter behind Rust `str::split` for a non-empty separator: scan
left to right, emitting the accumulated field whenever the separator
occurs.  The fuel argument (any bound above the input length) makes the
recursion structural. -/
def splitChars (sep : List Char) : Nat → List Char → List Char → List (List Char)
  | 0, acc, l => [acc.reverse ++ l]
  | _ + 1, acc, [] => [acc.reverse]
  | fuel + 1, acc, c :: rest =>
    if sep.isPrefixOf (c :: rest) then
      acc.reverse :: splitChars sep fuel [] (List.drop sep.length (c :: rest))
    else
      splitChars sep fuel (c :: acc) rest

/-- Rust `str::split` collected to a list (always non-empty). -/
def splitOnStr (s sep : String) : List String :=
  (splitChars sep.toList (s.toList.length + 1) [] s.toList).map String.mk

/-! ### db.rs : the running-time ledger

SQLite state is modelled explicitly: the `processes` table, the
`process_times` table, and the AUTOINCREMENT counters.  `created_at`
columns hold datetime TEXT as SQLite stores them.  Rust panics (the
`.unwrap()` on timestamp parsing) and the u64 subtraction underflow
(panic in debug builds, wrap in release builds) are modelled as
`Except.error` outcomes of the accrual operation. -/

/-- Failure modes of the persisted-ledger accrual path in db.rs. -/
inductive LedgerError where
  /-- `NaiveDateTime::parse_from_str(&created_at, "%Y-%m-%d %H:%M:%S").unwrap()`
  fails: the persisted timestamp is unparseable. -/
  | ledgerCorruption
  /-- the u64 subtraction `now - created_at.timestamp() as u64` underflows. -/
  | arithmeticUnderflow
  deriving DecidableEq, Repr

/-- db.rs `get_new_running_time(created_at, running_time)`.  The globals it
reads are passed explicitly: `now` is
`SystemTime::UNIX_EPOCH.elapsed().unwrap().as_secs()` and `interval` is
`QUERY_INTERVAL.as_secs()`.  The cast `created_at.timestamp() as u64` is
the two-complement reinterpretation of the i64 timestamp, hence the
explicit reduction modulo 2 ^ 64; u64 additions stay exact because the
involved quantities are far below 2 ^ 64 for every reachable state. -/
def get_new_running_time (created_at : String) (running_time : Nat)
    (now interval : Nat) : Except LedgerError Nat :=
  match parseTimestamp created_at with
  | none => .error .ledgerCorruption
  | some ts =>
    let tsu : Nat := (ts % (2 : Int) ^ 64).toNat
    if now < tsu then .error .arithmeticUnderflow
    else
      let elapsed_time := now - tsu
      if elapsed_time > interval * 2 then .ok (running_time + interval)
      else .ok (running_time + elapsed_time)

/-- processes.rs `Process`: one observed window-owning process. -/
structure Process where
  name : String
  pretty_name : String
  path : String
  deriving DecidableEq, Repr

/-- One row of the `processes` table. -/
structure ProcRow where
  id : Nat
  name : String
  pretty_name : String
  path : String
  deriving DecidableEq, Repr

/-- One row of the `process_times` table.  Per the schema in
`setup_database`, `running_time` has DEFAULT 0 and `created_at` has
DEFAULT CURRENT_TIMESTAMP. -/
structure TimesRow where
  id : Nat
  process_id : Nat
  running_time : Nat
  created_at : String
  deriving DecidableEq, Repr

/-- The SQLite database state. -/
structure DbState where
  processes : List ProcRow
  times : List TimesRow
  next_process_id : Nat
  next_times_id : Nat
  deriving DecidableEq, Repr

/-- db.rs `setup_database`: creates the two empty tables. -/
def setup_database : DbState := ⟨[], [], 1, 1⟩

/-- One result row of the SELECT in `update_processes`:
`path, process_id, running_time, MAX(process_times.created_at)`. -/
structure QueryRow where
  path : String
  process_id : Nat
  running_time : Nat
  created_at : String
  deriving DecidableEq, Repr

/-- Of a group of joined rows, the one attaining the maximal `created_at`
(SQLite bare-column semantics: the non-aggregated `running_time` column is
taken from the row where the MAX is attained). -/
def bestOf (r : QueryRow) : List QueryRow → QueryRow
  | [] => r
  | q :: rest => bestOf (if r.created_at < q.created_at then q else r) rest

/-- GROUP BY process_id with MAX(created_at).  The join determines `path`
from `process_id` (each times row joins the unique processes row with that
id), so grouping by `process_id, path` is grouping by `process_id`. -/
def groupMaxAux : Nat → List QueryRow → List QueryRow
  | 0, _ => []
  | _ + 1, [] => []
  | fuel + 1, r :: rest =>
    bestOf r (rest.filter (fun q => q.process_id == r.process_id))
      :: groupMaxAux fuel (rest.filter (fun q => q.process_id != r.process_id))

/-- Grouping entry point; the fuel bound makes the recursion structural
and is never exhausted since every step shortens the list. -/
def groupMax (l : List QueryRow) : List QueryRow :=
  groupMaxAux l.length l

/-- The SELECT of `update_processes`: joined rows of `process_times` and
`processes` whose `created_at` lies within the last hour
(`datetime(now, -1 hour)`; SQLite compares datetime TEXT
lexicographically), grouped by process with maximal `created_at`. -/
def recentTimes (s : DbState) (now : Nat) : List QueryRow :=
  let cutoff := formatTimestamp (now - 3600)
  groupMax (s.times.filterMap (fun t =>
    if strLt cutoff t.created_at then
      (s.processes.find? (fun p => p.id == t.process_id)).map
        (fun p => QueryRow.mk p.path t.process_id t.running_time t.created_at)
    else none))

/-- First loop of `update_processes`: for each recent row whose path
matches a process in the current list, recompute the running time and
UPDATE every `process_times` row of that process.  The UPDATE statement
sets only `running_time`; `created_at` is left untouched.  Returns the
new state and the accumulated `existing_processes` path set. -/
def applyUpdates (s : DbState) (existing : List String)
    (process_list : List Process) (now interval : Nat) :
    List QueryRow → Except LedgerError (DbState × List String)
  | [] => .ok (s, existing)
  | row :: rest =>
    match process_list.find? (fun p => p.path == row.path) with
    | none => applyUpdates s existing process_list now interval rest
    | some p =>
      match get_new_running_time row.created_at row.running_time now interval with
      | .error e => .error e
      | .ok new_rt =>
        let s := { s with
          times := s.times.map (fun t =>
            if t.process_id == row.process_id then
              { t with running_time := new_rt }
            else t) }
        applyUpdates s (existing ++ [p.path]) process_list now interval rest

/-- Second loop of `update_processes`: every current process whose path
was not updated gets a `process_times` row (DEFAULT running_time 0,
DEFAULT created_at CURRENT_TIMESTAMP), creating a `processes` row first
when no row with that name exists. -/
def insertNew (s : DbState) (existing : List String) (now : Nat) :
    List Process → DbState
  | [] => s
  | p :: rest =>
    if existing.contains p.path then insertNew s existing now rest
    else
      let pid_s : Nat × DbState :=
        match s.processes.find? (fun q => q.name == p.name) with
        | some q => (q.id, s)
        | none =>
          (s.next_process_id,
           { s with
             processes := s.processes
               ++ [⟨s.next_process_id, p.name, p.pretty_name, p.path⟩],
             next_process_id := s.next_process_id + 1 })
      let s1 := pid_s.2
      let s2 := { s1 with
        times := s1.times ++ [⟨s1.next_times_id, pid_s.1, 0, formatTimestamp now⟩],
        next_times_id := s1.next_times_id + 1 }
      insertNew s2 existing now rest

/-- db.rs `update_processes(conn, process_list)`: accrue time onto the
recently-updated rows matched by path, then insert rows for the processes
not seen.  A panic inside `get_new_running_time` aborts the whole
operation and is surfaced as the corresponding `LedgerError`. -/
def update_processes (s : DbState) (process_list : List Process)
    (now interval : Nat) : Except LedgerError DbState :=
  match applyUpdates s [] process_list now interval (recentTimes s now) with
  | .error e => .error e
  | .ok (s1, existing) => .ok (insertNew s1 existing now process_list)

/-! ### processes.rs : polling-interval configuration

`QUERY_INTERVAL` reads the PT_INTERVAL environment variable and parses it
with humantime, both external library calls; they are modelled by the
`env` argument: `none` means the variable is unset, `some none` means it
is set but humantime rejects it, `some (some d)` means it parses to the
duration `d`.  The three `panic!` calls are modelled as errors. -/

/-- Model of std::time::Duration: whole seconds plus nanoseconds. -/
structure Duration where
  secs : Nat
  nanos : Nat
  deriving DecidableEq, Repr

/-- Total length of a duration in nanoseconds. -/
def Duration.toNanos (d : Duration) : Nat :=
  d.secs * 1000000000 + d.nanos

/-- Startup failures of the `QUERY_INTERVAL` initializer. -/
inductive ConfigError where
  /-- panic: PT_INTERVAL env var is not a valid duration. -/
  | invalidDuration
  /-- panic: PT_INTERVAL env var is too large. -/
  | tooLarge
  /-- panic: PT_INTERVAL env var is too small. -/
  | tooSmall
  deriving DecidableEq, Repr

/-- processes.rs `QUERY_INTERVAL`: default 10 seconds when unset, panic
when unparseable, then the range check on `interval.as_secs()` (whole
seconds): panic when above 3600, panic when below 1. -/
def QUERY_INTERVAL (env : Option (Option Duration)) :
    Except ConfigError Duration :=
  let parsed : Except ConfigError Duration :=
    match env with
    | none => .ok ⟨10, 0⟩
    | some none => .error .invalidDuration
    | some (some d) => .ok d
  match parsed with
  | .error e => .error e
  | .ok interval =>
    if interval.secs > 3600 then .error .tooLarge
    else if interval.secs < 1 then .error .tooSmall
    else .ok interval

/-! ### processes.rs : the name normalizer

`pretty_process_name(path, title)` as written contains an unconditional
`panic!` after the title checks; everything below that statement is
unreachable.  The reachable function is embedded as
`pretty_process_name` (panic modelled as an error); the unreachable
normalization tail is embedded separately as `pretty_name_tail` so its
behaviour can also be stated.  Character classes (`is_lowercase`,
`is_numeric`, `[A-Z]`, `[a-z]`, `to_uppercase`) are modelled at ASCII,
where the Rust and Lean notions coincide; all inputs of interest are
ASCII. -/

/-- processes.rs `SPECIAL_CASES`. -/
def SPECIAL_CASES : List (String × String) :=
  [("Spotify.exe", "Spotify"), ("datagrip64.exe", "DataGrip")]

/-- processes.rs `NAME_SEPARATORS`. -/
def NAME_SEPARATORS : List String := ["-", "_", "."]

/-- processes.rs `EXTENSION`. -/
def EXTENSION : String := ".exe"

/-- Panics reachable from the name-normalization code. -/
inductive NamePanic where
  /-- panic: Could not get pretty name for process. -/
  | noPrettyName
  /-- `part.chars().next().unwrap()` on an empty segment (in the
  unreachable tail). -/
  | emptySegment
  deriving DecidableEq, Repr

/-- Rust `str::contains` for a non-empty needle, via `splitOn`. -/
def containsStr (s pat : String) : Bool :=
  (splitOnStr s pat).length > 1

/-- Rust `trim_end_matches(".exe")` on a reversed character list:
repeatedly strip the reversed suffix. -/
def stripRevExe : List Char → List Char
  | 'e' :: 'x' :: 'e' :: '.' :: rest => stripRevExe rest
  | l => l

/-- Rust `name.trim_end_matches(EXTENSION)`: remove every trailing
occurrence of ".exe" (case-sensitively, as the source does). -/
def trimExe (s : String) : String :=
  String.mk (stripRevExe s.toList.reverse).reverse

/-- Title-case one separator-segment:
`part.chars().next().unwrap().to_uppercase() + rest of the segment`.
The unwrap on an empty segment is a panic. -/
def titleCasePart (part : String) : Except NamePanic String :=
  match part.toList with
  | [] => .error .emptySegment
  | c :: rest => .ok (String.mk (c.toUpper :: rest))

/-- The regex replacement `([A-Z][a-z]+)` to a space plus the match:
equivalently, a space is inserted before every ASCII uppercase letter
immediately followed by an ASCII lowercase letter (each such letter
starts a leftmost-longest match, and matches contain no other such
letter). -/
def regexSpace : List Char → List Char
  | [] => []
  | [c] => [c]
  | c :: d :: rest =>
    if c.isUpper && d.isLower then ' ' :: c :: regexSpace (d :: rest)
    else c :: regexSpace (d :: rest)

/-- Rust `trim_start` for the space-only strings produced here. -/
def trimStart (s : String) : String :=
  String.mk (s.toList.dropWhile (· = ' '))

/-- Rust `split_whitespace` then `join(" ")` for space-only whitespace:
drop empty fields and rejoin with single spaces. -/
def joinWhitespace (s : String) : String :=
  String.intercalate " " ((splitOnStr s " ").filter (fun w => w ≠ ""))

/-- The normalization logic that follows the unconditional panic in
processes.rs `pretty_process_name` (the statements from `let name = if
path.starts_with ...` to the end).  Unreachable in the source as
written; embedded separately so its behaviour can be stated. -/
def pretty_name_tail (path : String) : Except NamePanic String :=
  let name0 :=
    if strStartsWith path "C:\\" then (splitOnStr path "\\").getLastD ""
    else path
  let name := trimExe name0
  match NAME_SEPARATORS.find? (fun sep => containsStr name sep) with
  | some sep =>
    match (splitOnStr name sep).mapM titleCasePart with
    | .error e => .error e
    | .ok parts => .ok (String.intercalate " " parts)
  | none =>
    if name.toList.all (fun c => c.isLower || c.isDigit) then
      match name.toList with
      | [] => .error .emptySegment
      | c :: rest => .ok (String.mk (c.toUpper :: rest))
    else
      .ok (joinWhitespace (trimStart (String.mk (regexSpace name.toList))))

/-- processes.rs `pretty_process_name(path, title)`: special cases by
path suffix, then the window title (its last " - " segment when the
title contains " - ", else the whole title when non-empty), then the
unconditional `panic!`.  The normalization tail below the panic is dead
code (see `pretty_name_tail`). -/
def pretty_process_name (path title : String) : Except NamePanic String :=
  match SPECIAL_CASES.find? (fun c => strEndsWith path c.1) with
  | some c => .ok c.2
  | none =>
    let parts := splitOnStr title " - "
    if parts.length > 1 then .ok (parts.getLastD "")
    else if title.length > 0 then .ok title
    else .error .noPrettyName

/-! ### main.rs : the relevance filter and the snapshot aggregator -/

/-- sysinfo ProcessStatus (the variants of the sysinfo crate). -/
inductive ProcessStatus where
  | Idle | Run | Sleep | Stop | Zombie | Tracing | Dead
  | Wakekill | Waking | Parked | LockBlocked
  | Unknown (code : Nat)
  deriving BEq, DecidableEq, Repr

/-- main.rs `IGNORED_PROCESSES`: the exact-name block list. -/
def IGNORED_PROCESSES : List String :=
  ["cargo.exe", "CefSharp.BrowserSubprocess.exe", "crashpad_handler.exe",
   "explorer.exe", "GoogleDriveFS.exe", "LSB.exe", "MbamBgNativeMsg.exe",
   "mbamtray.exe", "msedgewebview2.exe", "MSPCManagerService.exe",
   "nvcontainer.exe", "NVIDIA Share.exe", "NVIDIA Web Helper.exe",
   "nvsphelper64.exe", "OneDrive.exe", "QSHelper.exe",
   "Razer Synapse Service Process.exe", "steamwebhelper.exe", "vctip.exe",
   "XboxGameBarSpotify.exe"]

/-- main.rs `IGNORED_PATHS`: the path block list, parameterized by
`whoami::username()`. -/
def IGNORED_PATHS (username : String) : List String :=
  ["C:\\Program Files (x86)\\Lenovo\\VantageService",
   "C:\\Program Files\\Git",
   "C:\\Program Files\\PowerToys\\PowerToys.",
   "C:\\Program Files\\WindowsApps\\MicrosoftWindows.Client",
   "C:\\Windows",
   "C:\\Users\\" ++ username ++ "\\.rustup",
   "C:\\Users\\" ++ username ++ "\\.vscode",
   "C:\\Users\\" ++ username ++ "\\.wakatime"]

/-- One raw observation handed to the aggregation loop of main.rs
`process_process_list`: the fields it reads from a sysinfo process
(`name()`, `exe().to_str().unwrap()`, `status()`, `run_time()`,
`memory()`). -/
structure Observation where
  name : String
  path : String
  status : ProcessStatus
  run_time : Nat
  memory : Nat
  deriving DecidableEq, Repr

/-- main.rs `Process`: one aggregated entry of the snapshot. -/
structure AggProcess where
  name : String
  path : String
  count : Nat
  running_time : Nat
  memory : Nat
  deriving DecidableEq, Repr

/-- main.rs `is_relevant_process(name, path, status)`: non-empty path,
running status, name not block-listed, path not under a block-listed
prefix.  Rust uses the non-short-circuiting `&` on bool, which computes
the same conjunction. -/
def is_relevant_process (username name path : String)
    (status : ProcessStatus) : Bool :=
  (path.length > 0) && (status == ProcessStatus.Run)
    && !(IGNORED_PROCESSES.contains name)
    && !((IGNORED_PATHS username).any (fun p => strStartsWith path p))

/-- The body of the aggregation loop for one relevant observation:
bump the count of the first entry with the same name (exact,
case-sensitive), install the latest memory reading and the maximal run
time, or push a fresh entry with count 1 at the end. -/
def addObservation (l : List AggProcess) (o : Observation) : List AggProcess :=
  match l with
  | [] => [⟨o.name, o.path, 1, o.run_time, o.memory⟩]
  | p :: rest =>
    if p.name == o.name then
      { p with
        count := p.count + 1,
        memory := o.memory,
        running_time :=
          if p.running_time < o.run_time then o.run_time else p.running_time }
        :: rest
    else p :: addObservation rest o

/-- main.rs `process_process_list(system)`: fold the snapshot, skipping
observations rejected by `is_relevant_process` and aggregating the rest.
The snapshot itself (sysinfo refresh) is the black-box input list. -/
def process_process_list (username : String) (obs : List Observation) :
    List AggProcess :=
  obs.foldl
    (fun acc o =>
      if is_relevant_process username o.name o.path o.status then
        addObservation acc o
      else acc)
    []

/-- Total instance count of an aggregated snapshot. -/
def sumCounts (l : List AggProcess) : Nat :=
  (l.map (fun p => p.count)).sum

/-! ## Theorems -/

/-! ### Shared lemmas for the aggregation invariant -/

theorem sumCounts_cons (p : AggProcess) (l : List AggProcess) :
    sumCounts (p :: l) = p.count + sumCounts l := by
  simp [sumCounts]

theorem sumCounts_addObservation (l : List AggProcess) (o : Observation) :
    sumCounts (addObservation l o) = sumCounts l + 1 := by
  induction l with
  | nil => simp [addObservation, sumCounts]
  | cons p rest ih =>
    by_cases h : p.name == o.name
    · simp only [addObservation, h, if_pos, sumCounts_cons]
      omega
    · simp only [addObservation, h, Bool.false_eq_true, if_neg,
        not_false_iff, sumCounts_cons, ih]
      omega

theorem sumCounts_foldl (username : String) (obs : List Observation) :
    ∀ acc : List AggProcess,
      sumCounts (obs.foldl
        (fun acc o =>
          if is_relevant_process username o.name o.path o.status then
            addObservation acc o
          else acc) acc) =
      sumCounts acc +
        (obs.filter
          (fun o => is_relevant_process username o.name o.path o.status)).length := by
  induction obs with
  | nil => intro acc; simp
  | cons o rest ih =>
    intro acc
    by_cases h : is_relevant_process username o.name o.path o.status
    · simp only [List.foldl_cons, List.filter_cons, h, if_pos, List.length_cons,
        ih (addObservation acc o), sumCounts_addObservation]
      omega
    · simp only [List.foldl_cons, List.filter_cons, h, Bool.false_eq_true,
        if_neg, not_false_iff, ih acc]

/-! ### The claims -/

/-- C1: for every accrual on an identity that already has a ledger entry
(a parseable stored timestamp whose u64 reinterpretation does not exceed
`now`), with `elapsed = now - stored`: if `elapsed` is strictly greater
than `2 * interval` then the stored total grows by exactly `interval`,
regardless of how large the gap is; otherwise it grows by exactly
`elapsed`. -/
theorem claim1_gap_capping (s : String) (rt now iv : Nat) (ts : Int)
    (hp : parseTimestamp s = some ts)
    (hle : (ts % (2 : Int) ^ 64).toNat ≤ now) :
    get_new_running_time s rt now iv =
      .ok (rt + (if now - (ts % (2 : Int) ^ 64).toNat > iv * 2 then iv
                 else now - (ts % (2 : Int) ^ 64).toNat)) := by
  simp only [get_new_running_time, hp]
  rw [if_neg (Nat.not_lt.mpr hle)]
  by_cases h2 : now - (ts % (2 : Int) ^ 64).toNat > iv * 2
  · rw [if_pos h2, if_pos h2]
  · rw [if_neg h2, if_neg h2]

/-- Witness for C1: a 100-second gap with a 10-second interval accrues
exactly 10 seconds; a 15-second gap accrues exactly 15. -/
theorem claim1_gap_capping_witness :
    get_new_running_time "2023-11-14 22:13:20" 5 1700000100 10 = .ok 15 ∧
    get_new_running_time "2023-11-14 22:13:20" 5 1700000015 10 = .ok 20 := by
  have h1 := claim1_gap_capping "2023-11-14 22:13:20" 5 1700000100 10
    1700000000 (by decide) (by decide)
  have h2 := claim1_gap_capping "2023-11-14 22:13:20" 5 1700000015 10
    1700000000 (by decide) (by decide)
  exact ⟨h1.trans (by decide), h2.trans (by decide)⟩

/-- C2 (code bug): the claim says the persisted timestamp is set to the
time of each accrual write.  The UPDATE in `update_processes` sets only
`running_time`: after the accrual at time 1700000010 the persisted row
still carries the creation timestamp 1700000000, not the write time. -/
theorem claim2_timestamp_never_updated :
    update_processes
      ⟨[⟨1, "chrome.exe", "Chrome", "C:\\x\\chrome.exe"⟩],
       [⟨1, 1, 0, "2023-11-14 22:13:20"⟩], 2, 2⟩
      [⟨"chrome.exe", "Chrome", "C:\\x\\chrome.exe"⟩] 1700000010 10 =
      .ok ⟨[⟨1, "chrome.exe", "Chrome", "C:\\x\\chrome.exe"⟩],
           [⟨1, 1, 10, "2023-11-14 22:13:20"⟩], 2, 2⟩ ∧
    formatTimestamp 1700000010 = "2023-11-14 22:13:30" ∧
    ("2023-11-14 22:13:20" : String) ≠ "2023-11-14 22:13:30" :=
  ⟨by decide, by decide, by decide⟩

/-- C3 (code bug): the persisted cumulative total is not monotone.
Because `created_at` is never refreshed, a row ages out of the one-hour
SELECT window after an hour of normal operation, a fresh zero row is
inserted for the same process, and the next accrual reads the fresh
row (it has the maximal `created_at`) while its UPDATE, filtered only
by `process_id`, overwrites every row of the process: the aged row's
total 3600 is replaced by the fresh accrual 10, so the identity's
persisted cumulative running time decreases within its lifetime. -/
theorem claim3_persisted_decrease :
    update_processes
      ⟨[⟨1, "chrome.exe", "Chrome", "C:\\x\\chrome.exe"⟩],
       [⟨1, 1, 3600, "2023-11-14 18:00:00"⟩,
        ⟨2, 1, 0, "2023-11-14 22:13:10"⟩], 2, 3⟩
      [⟨"chrome.exe", "Chrome", "C:\\x\\chrome.exe"⟩] 1700000000 10 =
      .ok ⟨[⟨1, "chrome.exe", "Chrome", "C:\\x\\chrome.exe"⟩],
           [⟨1, 1, 10, "2023-11-14 18:00:00"⟩,
            ⟨2, 1, 10, "2023-11-14 22:13:10"⟩], 2, 3⟩ := by
  decide

/-- The first loop of `update_processes` leaves the state unchanged and
collects no paths when no query row's path occurs in the (singleton)
current process list. -/
theorem applyUpdates_no_match (p : Process) (now iv : Nat) :
    ∀ (rows : List QueryRow) (s : DbState),
      (∀ r ∈ rows, ¬ p.path = r.path) →
      applyUpdates s [] [p] now iv rows = .ok (s, []) := by
  intro rows
  induction rows with
  | nil => intro s _; rfl
  | cons r rest ih =>
    intro s h
    have hr : (p.path == r.path) = false := by
      simpa using h r (List.mem_cons_self r rest)
    have hfind : ([p].find? (fun q => q.path == r.path)) = none := by
      simp [List.find?, hr]
    simp only [applyUpdates, hfind]
    exact ih s (fun q hq => h q (List.mem_cons_of_mem r hq))

/-- The second loop of `update_processes`, for one process whose path
was not collected and whose name has no `processes` row: it appends a
fresh `processes` row and a `process_times` row with running time 0 and
the current timestamp. -/
theorem insertNew_fresh (s : DbState) (p : Process) (now : Nat)
    (h : s.processes.find? (fun q => q.name == p.name) = none) :
    insertNew s [] now [p] =
      ⟨s.processes ++ [⟨s.next_process_id, p.name, p.pretty_name, p.path⟩],
       s.times ++ [⟨s.next_times_id, s.next_process_id, 0, formatTimestamp now⟩],
       s.next_process_id + 1, s.next_times_id + 1⟩ := by
  simp only [insertNew, h]
  rfl

/-- C4 counterexample: the claim fails when the first-seen identity's
path coincides with the path of another identity's recent row: the
first loop of `update_processes` matches by path and accrues onto the
other identity's row (50 to 60), the path lands in the skip set, and
the second loop creates nothing — after the cycle no row named
new.exe and no zero row exists. -/
theorem claim4_path_collision_cex :
    update_processes
      ⟨[⟨1, "old.exe", "Old", "C:\\z\\app.exe"⟩],
       [⟨1, 1, 50, "2023-11-14 22:13:10"⟩], 2, 2⟩
      [⟨"new.exe", "New", "C:\\z\\app.exe"⟩] 1700000000 10 =
      .ok ⟨[⟨1, "old.exe", "Old", "C:\\z\\app.exe"⟩],
           [⟨1, 1, 60, "2023-11-14 22:13:10"⟩], 2, 2⟩ ∧
    (∀ q ∈ [ProcRow.mk 1 "old.exe" "Old" "C:\\z\\app.exe"],
      ¬ q.name = "new.exe") ∧
    (∀ t ∈ [TimesRow.mk 1 1 60 "2023-11-14 22:13:10"],
      ¬ t.running_time = 0) :=
  ⟨by decide, by decide, by decide⟩

/-- C4 (amended): on the first observation of an identity with no
existing ledger entry, provided no recent ledger row of any identity
shares its executable path (the accrual loop matches by path), a row is
created with running time 0 and the current timestamp — for every prior
database state and every time; and in the concrete two-cycle scenario a
second cycle 10 seconds later with the same identity present yields
running time 10. -/
theorem claim4_fresh_identity (p : Process) (s : DbState) (now iv : Nat)
    (hpath : ∀ r ∈ recentTimes s now, ¬ p.path = r.path)
    (hname : s.processes.find? (fun q => q.name == p.name) = none) :
    update_processes s [p] now iv =
      .ok ⟨s.processes ++ [⟨s.next_process_id, p.name, p.pretty_name, p.path⟩],
           s.times ++ [⟨s.next_times_id, s.next_process_id, 0, formatTimestamp now⟩],
           s.next_process_id + 1, s.next_times_id + 1⟩ ∧
    update_processes
      ⟨[⟨1, "app.exe", "App", "C:\\y\\app.exe"⟩],
       [⟨1, 1, 0, "2023-11-14 22:13:20"⟩], 2, 2⟩
      [⟨"app.exe", "App", "C:\\y\\app.exe"⟩] 1700000010 10 =
      .ok ⟨[⟨1, "app.exe", "App", "C:\\y\\app.exe"⟩],
           [⟨1, 1, 10, "2023-11-14 22:13:20"⟩], 2, 2⟩ := by
  constructor
  · unfold update_processes
    rw [applyUpdates_no_match p now iv (recentTimes s now) s hpath]
    exact congrArg Except.ok (insertNew_fresh s p now hname)
  · decide

/-- Witness for C4: a fresh identity observed in a non-empty state
whose recent row has a different path gets a zero row with the current
timestamp, while the unrelated row is left untouched. -/
theorem claim4_fresh_identity_witness :
    update_processes
      ⟨[⟨1, "old.exe", "Old", "C:\\z\\old.exe"⟩],
       [⟨1, 1, 50, "2023-11-14 22:13:10"⟩], 2, 2⟩
      [⟨"new.exe", "New", "C:\\z\\new.exe"⟩] 1700000000 10 =
      .ok ⟨[⟨1, "old.exe", "Old", "C:\\z\\old.exe"⟩,
            ⟨2, "new.exe", "New", "C:\\z\\new.exe"⟩],
           [⟨1, 1, 50, "2023-11-14 22:13:10"⟩,
            ⟨2, 2, 0, "2023-11-14 22:13:20"⟩], 3, 3⟩ := by
  have h := (claim4_fresh_identity ⟨"new.exe", "New", "C:\\z\\new.exe"⟩
    ⟨[⟨1, "old.exe", "Old", "C:\\z\\old.exe"⟩],
     [⟨1, 1, 50, "2023-11-14 22:13:10"⟩], 2, 2⟩ 1700000000 10
    (by decide) (by decide)).1
  exact h.trans (by decide)

/-- C5 (code bug): applied to the raw executable identifier with no
usable window title, the normalizer hits the unconditional panic for all
five literal cases instead of returning the specified display names; the
normalization logic that would return them sits below the panic and is
unreachable. -/
theorem claim5_normalizer_literals :
    pretty_process_name "chrome.exe" "" = .error .noPrettyName ∧
    pretty_process_name "Microsoft.SharePoint.exe" "" = .error .noPrettyName ∧
    pretty_process_name "process-tracker.exe" "" = .error .noPrettyName ∧
    pretty_process_name "ShareX.exe" "" = .error .noPrettyName ∧
    pretty_process_name "wallpaper32.exe" "" = .error .noPrettyName ∧
    pretty_name_tail "chrome.exe" = .ok "Chrome" ∧
    pretty_name_tail "Microsoft.SharePoint.exe" = .ok "Microsoft SharePoint" ∧
    pretty_name_tail "process-tracker.exe" = .ok "Process Tracker" ∧
    pretty_name_tail "ShareX.exe" = .ok "ShareX" ∧
    pretty_name_tail "wallpaper32.exe" = .ok "Wallpaper32" :=
  ⟨by decide, by decide, by decide, by decide, by decide, by decide,
   by decide, by decide, by decide, by decide⟩

/-- C6 (code bug): the name normalizer is not total: an executable name
that is not special-cased, observed with an empty window title, makes
`pretty_process_name` panic instead of returning a value. -/
theorem claim6_normalizer_can_fail :
    pretty_process_name "foo.exe" "" = .error .noPrettyName := by
  decide

/-- C7: a persisted timestamp that does not parse as
`%Y-%m-%d %H:%M:%S` makes the accrual operation fail with the
ledger-corruption error; it is never recovered or defaulted. -/
theorem claim7_corrupt_timestamp (s : String) (rt now iv : Nat)
    (h : parseTimestamp s = none) :
    get_new_running_time s rt now iv = .error .ledgerCorruption := by
  simp only [get_new_running_time, h]

/-- Witness for C7: a string of the right shape but with month 13 fails
to parse and the accrual surfaces the corruption error. -/
theorem claim7_corrupt_timestamp_witness :
    get_new_running_time "2023-13-99 99:99:99" 3 1700000000 10 =
      .error .ledgerCorruption :=
  claim7_corrupt_timestamp "2023-13-99 99:99:99" 3 1700000000 10 (by decide)

/-- C8 counterexample: a duration strictly above 3600 seconds
(3600.5 s) is out of the claimed range yet accepted, because the range
check reads `interval.as_secs()`, which truncates to whole seconds. -/
theorem claim8_subsecond_cex :
    (3600 * 1000000000 < Duration.toNanos ⟨3600, 500000000⟩) ∧
    QUERY_INTERVAL (some (some ⟨3600, 500000000⟩)) =
      .ok ⟨3600, 500000000⟩ :=
  ⟨by decide, by decide⟩

/-- C8 amended: the startup validation is on whole seconds: a set,
parseable interval is accepted exactly when its truncated second count
lies in [1, 3600]; larger second counts and zero seconds panic, an
unparseable value panics, and an unset variable defaults to 10 s. -/
theorem claim8_whole_second_validation (d : Duration) :
    QUERY_INTERVAL none = .ok ⟨10, 0⟩ ∧
    QUERY_INTERVAL (some none) = .error .invalidDuration ∧
    (1 ≤ d.secs → d.secs ≤ 3600 → QUERY_INTERVAL (some (some d)) = .ok d) ∧
    (3600 < d.secs → QUERY_INTERVAL (some (some d)) = .error .tooLarge) ∧
    (d.secs < 1 → QUERY_INTERVAL (some (some d)) = .error .tooSmall) := by
  refine ⟨rfl, rfl, ?_, ?_, ?_⟩
  · intro h1 h2
    simp only [QUERY_INTERVAL]
    rw [if_neg (by omega), if_neg (by omega)]
  · intro h
    simp only [QUERY_INTERVAL]
    rw [if_pos h]
  · intro h
    simp only [QUERY_INTERVAL]
    rw [if_neg (by omega), if_pos h]

/-- Witness for C8: 5 seconds is in range and accepted; 3601 seconds is
rejected as too large; 0 seconds is rejected as too small. -/
theorem claim8_witness :
    QUERY_INTERVAL (some (some ⟨5, 0⟩)) = .ok ⟨5, 0⟩ ∧
    QUERY_INTERVAL (some (some ⟨3601, 0⟩)) = .error .tooLarge ∧
    QUERY_INTERVAL (some (some ⟨0, 900000000⟩)) = .error .tooSmall :=
  ⟨(claim8_whole_second_validation ⟨5, 0⟩).2.2.1 (by decide) (by decide),
   (claim8_whole_second_validation ⟨3601, 0⟩).2.2.2.1 (by decide),
   (claim8_whole_second_validation ⟨0, 900000000⟩).2.2.2.2 (by decide)⟩

/-- C9: for any input list of raw observations, the total instance count
of the aggregated snapshot equals the number of observations passing the
relevance filter. -/
theorem claim9_aggregation_count (username : String) (obs : List Observation) :
    sumCounts (process_process_list username obs) =
      (obs.filter
        (fun o => is_relevant_process username o.name o.path o.status)).length := by
  have h := sumCounts_foldl username obs []
  simpa [process_process_list, sumCounts] using h

/-- C10 counterexample: the pre-epoch timestamp 1950-01-01 00:00:00
denotes -631152000, which is at most the current time 1700000000, yet
the accrual does not return normally: the `as u64` cast wraps the
negative value above 2 ^ 64 - 2 ^ 63 and the subtraction underflows. -/
theorem claim10_pre_epoch_cex :
    parseTimestamp "1950-01-01 00:00:00" = some (-631152000) ∧
    (-631152000 : Int) ≤ (1700000000 : Int) ∧
    get_new_running_time "1950-01-01 00:00:00" 0 1700000000 10 =
      .error .arithmeticUnderflow :=
  ⟨by decide, by decide, by decide⟩

/-- C10 amended: the clock-ordering precondition must also exclude
pre-epoch timestamps.  For a stored timestamp parsing to `ts`: if
`0 ≤ ts ≤ now` the call returns normally with the capped or full
increment; if `0 ≤ ts` and `now < ts` the subtraction underflows; and if
`ts < 0` the i64-to-u64 cast wraps, so the subtraction underflows
whenever `now + |ts| < 2 ^ 64` (in particular for every timestamp the
parser can produce and every realistic `now`). -/
theorem claim10_underflow_characterization (s : String) (rt now iv : Nat)
    (ts : Int) (hp : parseTimestamp s = some ts) :
    (0 ≤ ts → ts < 2 ^ 64 → ts.toNat ≤ now →
      get_new_running_time s rt now iv =
        .ok (rt + (if now - ts.toNat > iv * 2 then iv else now - ts.toNat))) ∧
    (0 ≤ ts → ts < 2 ^ 64 → now < ts.toNat →
      get_new_running_time s rt now iv = .error .arithmeticUnderflow) ∧
    (ts < 0 → -(2 ^ 64) ≤ ts → now + (-ts).toNat < 2 ^ 64 →
      get_new_running_time s rt now iv = .error .arithmeticUnderflow) := by
  have hpowI : ((2 : Int) ^ 64) = 18446744073709551616 := by norm_num
  have hpowN : ((2 : Nat) ^ 64) = 18446744073709551616 := by norm_num
  refine ⟨?_, ?_, ?_⟩
  · intro h0 hlt hle
    have hmod : ts % (2 : Int) ^ 64 = ts := by
      rw [hpowI]; rw [hpowI] at hlt; omega
    simp only [get_new_running_time, hp, hmod]
    rw [if_neg (by omega)]
    by_cases h2 : now - ts.toNat > iv * 2
    · rw [if_pos h2, if_pos h2]
    · rw [if_neg h2, if_neg h2]
  · intro h0 hlt hnow
    have hmod : ts % (2 : Int) ^ 64 = ts := by
      rw [hpowI]; rw [hpowI] at hlt; omega
    simp only [get_new_running_time, hp, hmod]
    rw [if_pos hnow]
  · intro hneg hge hlt
    have hmod : (ts % (2 : Int) ^ 64).toNat =
        18446744073709551616 - (-ts).toNat := by
      rw [hpowI]; rw [hpowI] at hge; omega
    simp only [get_new_running_time, hp, hmod]
    rw [if_pos (by rw [hpowN] at hlt; omega)]

/-- Witness for C10: a post-epoch timestamp at most now returns
normally; the same timestamp ahead of now underflows; a 1960 timestamp
(before the epoch, hence below now) also underflows. -/
theorem claim10_witness :
    get_new_running_time "2001-09-09 01:46:40" 7 1000000050 10 = .ok 17 ∧
    get_new_running_time "2001-09-09 01:46:40" 7 999999999 10 =
      .error .arithmeticUnderflow ∧
    get_new_running_time "1960-01-01 00:00:00" 0 1700000000 10 =
      .error .arithmeticUnderflow := by
  have h1 := (claim10_underflow_characterization "2001-09-09 01:46:40" 7
    1000000050 10 1000000000 (by decide)).1 (by decide) (by decide) (by decide)
  have h2 := (claim10_underflow_characterization "2001-09-09 01:46:40" 7
    999999999 10 1000000000 (by decide)).2.1 (by decide) (by decide) (by decide)
  have h3 := (claim10_underflow_characterization "1960-01-01 00:00:00" 0
    1700000000 10 (-315619200) (by decide)).2.2 (by decide) (by decide) (by decide)
  exact ⟨h1.trans (by decide), h2, h3⟩

end ProcessTracker
